import Mathlib

/-!
Shallow embedding of `src/main.rs` of the MandelbrotSet repository.

The program renders a region of the complex plane by the escape-time
algorithm.  `f32` arithmetic of the source is modelled by exact real
arithmetic (`ℝ`), matching the specification's real-valued data model.
Mutating methods of the source (`Color::add`, `Color::divide`) are
modelled as functions returning the updated value.
-/

namespace MandelbrotSet

noncomputable section

/-- `struct Complex { r: Real, i: Real }` from the source. -/
structure Complex where
  r : ℝ
  i : ℝ

/-- `Complex::squared`: `Complex {r: self.r*self.r - self.i*self.i, i: 2.0*self.r*self.i}`. -/
def Complex.squared (self : Complex) : Complex :=
  ⟨self.r * self.r - self.i * self.i, 2 * self.r * self.i⟩

/-- `Complex::add`: componentwise addition. -/
def Complex.add (self rhs : Complex) : Complex :=
  ⟨self.r + rhs.r, self.i + rhs.i⟩

/-- `Complex::length`: `(self.r*self.r + self.i*self.i).sqrt()`. -/
def Complex.length (self : Complex) : ℝ :=
  Real.sqrt (self.r * self.r + self.i * self.i)

/-- `struct Color { r, g, b, a: Real }` from the source. -/
structure Color where
  r : ℝ
  g : ℝ
  b : ℝ
  a : ℝ

/-- `Color::new`: the zero color. -/
def Color.new : Color := ⟨0, 0, 0, 0⟩

/-- `Color::add`: channelwise `+=`, modelled as returning the sum. -/
def Color.add (self : Color) (rhs : Color) : Color :=
  ⟨self.r + rhs.r, self.g + rhs.g, self.b + rhs.b, self.a + rhs.a⟩

/-- `Color::divide`: channelwise `/=`, modelled as returning the quotient. -/
def Color.divide (self : Color) (value : ℝ) : Color :=
  ⟨self.r / value, self.g / value, self.b / value, self.a / value⟩

/-- The escape-time loop of `main` (lines 142-147):
`while temp.length() <= MAX_LENGTH && iterations < MAX_ITERATIONS
   { temp = temp.squared().add(&pos); iterations += 1; }`
parametrised by the bound and the iteration cap.  Returns the final
value of `iterations`. -/
def evaluateAux (pos : Complex) (maxIterations : ℕ) (bound : ℝ)
    (temp : Complex) (iterations : ℕ) : ℕ :=
  if h : temp.length ≤ bound ∧ iterations < maxIterations then
    evaluateAux pos maxIterations bound (temp.squared.add pos) (iterations + 1)
  else
    iterations
termination_by maxIterations - iterations
decreasing_by omega

/-- The escape-time evaluator: starts from `temp = 0`, `iterations = 0`
(lines 142-143 of the source). -/
def evaluate (pos : Complex) (maxIterations : ℕ) (bound : ℝ) : ℕ :=
  evaluateAux pos maxIterations bound ⟨0, 0⟩ 0

/-- The hard-coded raster width, `const BUFFER_WIDTH: usize = 1366`. -/
def BUFFER_WIDTH : ℕ := 1366

/-- The hard-coded raster height, `const BUFFER_HEIGHT: usize = 768`. -/
def BUFFER_HEIGHT : ℕ := 768

/-- The hard-coded sample count per pixel, `const SAMPLE_COUNT: usize = 16`. -/
def SAMPLE_COUNT : ℕ := 16

/-- `const MAX_ITERATIONS: u32 = 250`. -/
def MAX_ITERATIONS : ℕ := 250

/-- `const MAX_LENGTH: Real = 2.0`. -/
def MAX_LENGTH : ℝ := 2

/-- `const COLOR_PALETTE: [Color; 16]` from the source, in order. -/
def COLOR_PALETTE : List Color :=
  [ ⟨0.26, 0.1,  0.06, 1.0⟩,
    ⟨0.1,  0.03, 0.1,  1.0⟩,
    ⟨0.3,  0.01, 0.18, 1.0⟩,
    ⟨0.02, 0.02, 0.28, 1.0⟩,
    ⟨0.0,  0.03, 0.4,  1.0⟩,
    ⟨0.05, 0.17, 0.54, 1.0⟩,
    ⟨0.1,  0.3,  0.7,  1.0⟩,
    ⟨0.25, 0.5,  0.82, 1.0⟩,
    ⟨0.53, 0.71, 0.9,  1.0⟩,
    ⟨0.83, 0.93, 0.97, 1.0⟩,
    ⟨0.95, 0.91, 0.75, 1.0⟩,
    ⟨0.97, 0.78, 0.37, 1.0⟩,
    ⟨1.0,  0.67, 0.0,  1.0⟩,
    ⟨0.8,  0.5,  0.0,  1.0⟩,
    ⟨0.6,  0.34, 0.0,  1.0⟩,
    ⟨0.42, 0.2,  0.02, 1.0⟩ ]

/-- The palette lookup of line 148, `COLOR_PALETTE[(iterations%16) as usize]`.
The source's array indexing is total because `iterations % 16 < 16`; modelled
with `List.getD` whose default branch is proved unreachable. -/
def paletteColor (iterations : ℕ) : Color :=
  COLOR_PALETTE.getD (iterations % 16) Color.new

/-- The per-sample position computation of lines 137-141: normalized device
coordinates from the pixel index plus jitter, then the viewport transform to
plane coordinates.  Parametrised by the raster size, viewport center and
extents exactly as the source computes with its constants. -/
def samplePoint (rasterW rasterH : ℕ) (centerX centerY viewW viewH : ℝ)
    (x y : ℕ) (jitterX jitterY : ℝ) : Complex :=
  let normPosX : ℝ := ((x : ℝ) + jitterX) / (rasterW : ℝ) * 2 - 1
  let normPosY : ℝ := ((y : ℝ) + jitterY) / (rasterH : ℝ) * 2 - 1
  ⟨centerX + normPosX * viewW / 2, centerY + normPosY * viewH / 2⟩

/-- The list of palette colors contributed by the `SAMPLE_COUNT` samples of
one pixel (loop body of lines 136-149), with the jitter of sample `s` given
by `jitter s`. -/
def sampleColors (jitter : ℕ → ℝ × ℝ) (rasterW rasterH : ℕ)
    (centerX centerY viewW viewH : ℝ) (maxIterations : ℕ) (bound : ℝ)
    (x y sampleCount : ℕ) : List Color :=
  (List.range sampleCount).map fun s =>
    paletteColor (evaluate
      (samplePoint rasterW rasterH centerX centerY viewW viewH x y
        (jitter s).1 (jitter s).2)
      maxIterations bound)

/-- One pixel of the render (lines 135-151): accumulate the sample colors
starting from `Color::new`, then divide by the sample count. -/
def renderPixel (jitter : ℕ → ℝ × ℝ) (rasterW rasterH : ℕ)
    (centerX centerY viewW viewH : ℝ) (maxIterations : ℕ) (bound : ℝ)
    (x y sampleCount : ℕ) : Color :=
  ((sampleColors jitter rasterW rasterH centerX centerY viewW viewH
      maxIterations bound x y sampleCount).foldl Color.add Color.new).divide
    (sampleCount : ℝ)

/-- The whole render loop (lines 133-152): the row-major pixel buffer, with
the jitter of sample `s` of pixel `(x, y)` given by `jitter x y s`. -/
def render (jitter : ℕ → ℕ → ℕ → ℝ × ℝ) (rasterW rasterH : ℕ)
    (centerX centerY viewW viewH : ℝ) (maxIterations : ℕ) (bound : ℝ)
    (sampleCount : ℕ) : List Color :=
  (List.range rasterH).flatMap fun y =>
    (List.range rasterW).map fun x =>
      renderPixel (jitter x y) rasterW rasterH centerX centerY viewW viewH
        maxIterations bound x y sampleCount

/-- The sequence of progress percentages printed by the render loop
(lines 153-156): `(y * 100) / rasterH` after each row `y`, then a final
`100`. -/
def progressReports (rasterH : ℕ) : List ℕ :=
  ((List.range rasterH).map fun y => y * 100 / rasterH) ++ [100]

/-- The viewport transform exactly as the specification words it:
`nx = ((x + jitter_x) / raster_width) * 2 − 1`,
`plane_r = center_x + nx * plane_width / 2`, and likewise for the
imaginary axis.  Used only to compare against `samplePoint`. -/
def specSamplePoint (rasterW rasterH : ℕ) (centerX centerY viewW viewH : ℝ)
    (x y : ℕ) (jitterX jitterY : ℝ) : Complex :=
  ⟨centerX + (((x : ℝ) + jitterX) / (rasterW : ℝ) * 2 - 1) * viewW / 2,
   centerY + (((y : ℝ) + jitterY) / (rasterH : ℝ) * 2 - 1) * viewH / 2⟩

/-! ## Helper lemmas -/

/-- The magnitude of the starting value `Complex {r: 0.0, i: 0.0}` is `0`. -/
theorem Complex.length_zero : Complex.length ⟨0, 0⟩ = 0 := by
  simp [Complex.length]

/-- One loop step from `temp = 0` produces exactly `pos`. -/
theorem Complex.squared_zero_add (pos : Complex) :
    (Complex.squared ⟨0, 0⟩).add pos = pos := by
  simp [Complex.squared, Complex.add]

/-- The loop counter result of `evaluateAux` never exceeds the cap, provided
it starts at or below the cap. -/
theorem evaluateAux_le (pos : Complex) (maxIterations : ℕ) (bound : ℝ) :
    ∀ (n : ℕ) (temp : Complex) (iterations : ℕ),
      maxIterations - iterations ≤ n → iterations ≤ maxIterations →
      evaluateAux pos maxIterations bound temp iterations ≤ maxIterations := by
  intro n
  induction n with
  | zero =>
    intro temp iterations hn hle
    rw [evaluateAux, dif_neg]
    · exact hle
    · rintro ⟨-, hlt⟩
      omega
  | succ n ih =>
    intro temp iterations hn hle
    rw [evaluateAux]
    split
    · next h => exact ih _ _ (by omega) (by omega)
    · exact hle

/-- From the origin the orbit stays at the origin, so `evaluateAux` runs the
loop to the cap whenever the bound is nonnegative. -/
theorem evaluateAux_origin (maxIterations : ℕ) (bound : ℝ) (hb : 0 ≤ bound) :
    ∀ (n : ℕ) (iterations : ℕ),
      maxIterations - iterations ≤ n → iterations ≤ maxIterations →
      evaluateAux ⟨0, 0⟩ maxIterations bound ⟨0, 0⟩ iterations = maxIterations := by
  intro n
  induction n with
  | zero =>
    intro iterations hn hle
    rw [evaluateAux, dif_neg]
    · omega
    · rintro ⟨-, hlt⟩
      omega
  | succ n ih =>
    intro iterations hn hle
    rw [evaluateAux]
    by_cases h : Complex.length ⟨0, 0⟩ ≤ bound ∧ iterations < maxIterations
    · rw [dif_pos h, Complex.squared_zero_add]
      exact ih (iterations + 1) (by omega) (by omega)
    · rw [dif_neg h]
      have h0 : Complex.length ⟨0, 0⟩ ≤ bound := by
        rw [Complex.length_zero]; exact hb
      have : ¬ iterations < maxIterations := fun hlt => h ⟨h0, hlt⟩
      omega

/-- Channelwise reading of the accumulation `foldl Color.add`: any channel of
the fold is the starting channel plus the sum of that channel over the list. -/
theorem foldl_add_channel (f : Color → ℝ)
    (hf : ∀ c d : Color, f (Color.add c d) = f c + f d) :
    ∀ (l : List Color) (c : Color),
      f (l.foldl Color.add c) = f c + (l.map f).sum := by
  intro l
  induction l with
  | nil => intro c; simp
  | cons hd tl ih =>
    intro c
    simp only [List.foldl_cons, List.map_cons, List.sum_cons, ih, hf]
    ring

/-- Every color the palette lookup can return is an entry of the palette. -/
theorem paletteColor_mem (k : ℕ) : paletteColor k ∈ COLOR_PALETTE := by
  have hlt : k % 16 < COLOR_PALETTE.length := by
    have : COLOR_PALETTE.length = 16 := by simp [COLOR_PALETTE]
    rw [this]
    exact Nat.mod_lt _ (by norm_num)
  rw [paletteColor, List.getD_eq_getElem _ _ hlt]
  exact List.getElem_mem hlt

/-- Every entry of the palette has alpha channel `1`. -/
theorem palette_mem_alpha (c : Color) (hc : c ∈ COLOR_PALETTE) : c.a = 1 := by
  fin_cases hc <;> norm_num

/-! ## Claims -/

/-- C1: for every point with `|point| > bound` (with the contract's
nonnegative bound) and every `max_iterations ≥ 1`, the escape-time evaluator
returns exactly 1: the first iteration maps `z = 0` to `point`, whose
magnitude already exceeds the bound, so the loop stops after one
iteration. -/
theorem evaluate_escape_immediately (pos : Complex) (maxIterations : ℕ)
    (bound : ℝ) (hb : 0 ≤ bound) (hp : bound < pos.length)
    (hm : 1 ≤ maxIterations) :
    evaluate pos maxIterations bound = 1 := by
  have h0 : Complex.length ⟨0, 0⟩ ≤ bound := by
    rw [Complex.length_zero]; exact hb
  rw [evaluate, evaluateAux, dif_pos ⟨h0, by omega⟩, Complex.squared_zero_add,
    evaluateAux, dif_neg]
  rintro ⟨hle, -⟩
  exact absurd hle (not_le.mpr hp)

/-- Witness for C1: the point `(3, 4)` has magnitude `5 > 2`, and the
evaluator with the source's cap and bound returns 1 on it. -/
theorem evaluate_escape_immediately_witness :
    (0 : ℝ) ≤ MAX_LENGTH ∧ MAX_LENGTH < Complex.length ⟨3, 4⟩ ∧
      1 ≤ MAX_ITERATIONS ∧ evaluate ⟨3, 4⟩ MAX_ITERATIONS MAX_LENGTH = 1 :=
  ⟨by norm_num [MAX_LENGTH],
   by
     have h : (2 : ℝ) < Real.sqrt ((3 : ℝ) * 3 + 4 * 4) :=
       (Real.lt_sqrt (by norm_num)).mpr (by norm_num)
     simpa [Complex.length, MAX_LENGTH] using h,
   by norm_num [MAX_ITERATIONS],
   evaluate_escape_immediately ⟨3, 4⟩ MAX_ITERATIONS MAX_LENGTH
     (by norm_num [MAX_LENGTH])
     (by
       have h : (2 : ℝ) < Real.sqrt ((3 : ℝ) * 3 + 4 * 4) :=
         (Real.lt_sqrt (by norm_num)).mpr (by norm_num)
       simpa [Complex.length, MAX_LENGTH] using h)
     (by norm_num [MAX_ITERATIONS])⟩

/-- C5: for the point `(0, 0)`, any `max_iterations ≥ 1` and any bound
`> 0`, the evaluator returns `max_iterations`: the orbit stays at `(0, 0)`
with magnitude 0 forever, so the loop runs to the iteration cap. -/
theorem evaluate_origin_returns_max (maxIterations : ℕ) (bound : ℝ)
    (hm : 1 ≤ maxIterations) (hb : 0 < bound) :
    evaluate ⟨0, 0⟩ maxIterations bound = maxIterations :=
  evaluateAux_origin maxIterations bound hb.le maxIterations 0 (by omega)
    (Nat.zero_le _)

/-- Witness for C5: with the source's cap 250 and bound 2, the origin
evaluates to 250. -/
theorem evaluate_origin_returns_max_witness :
    1 ≤ MAX_ITERATIONS ∧ (0 : ℝ) < MAX_LENGTH ∧
      evaluate ⟨0, 0⟩ MAX_ITERATIONS MAX_LENGTH = MAX_ITERATIONS :=
  ⟨by norm_num [MAX_ITERATIONS], by norm_num [MAX_LENGTH],
   evaluate_origin_returns_max MAX_ITERATIONS MAX_LENGTH
     (by norm_num [MAX_ITERATIONS]) (by norm_num [MAX_LENGTH])⟩

/-- C6: for every input point, every bound and every iteration cap, the
evaluator's return value never exceeds `max_iterations`, and as a natural
number it is never negative. -/
theorem evaluate_never_exceeds_max (pos : Complex) (maxIterations : ℕ)
    (bound : ℝ) :
    evaluate pos maxIterations bound ≤ maxIterations ∧
      0 ≤ evaluate pos maxIterations bound :=
  ⟨evaluateAux_le pos maxIterations bound maxIterations ⟨0, 0⟩ 0 (by omega)
     (Nat.zero_le _),
   Nat.zero_le _⟩

/-- C2: for every pixel, the per-sample list has exactly `sampleCount`
entries, and after the accumulation loop and the division by the sample
count, each channel of the stored pixel color equals the arithmetic mean
(sum divided by sample count, in exact real arithmetic) of that channel
over the palette colors selected for the pixel's samples. -/
theorem pixel_color_is_mean (jitter : ℕ → ℝ × ℝ) (rasterW rasterH : ℕ)
    (centerX centerY viewW viewH : ℝ) (maxIterations : ℕ) (bound : ℝ)
    (x y sampleCount : ℕ) :
    (sampleColors jitter rasterW rasterH centerX centerY viewW viewH
        maxIterations bound x y sampleCount).length = sampleCount ∧
    (renderPixel jitter rasterW rasterH centerX centerY viewW viewH
        maxIterations bound x y sampleCount).r =
      ((sampleColors jitter rasterW rasterH centerX centerY viewW viewH
          maxIterations bound x y sampleCount).map Color.r).sum /
        (sampleCount : ℝ) ∧
    (renderPixel jitter rasterW rasterH centerX centerY viewW viewH
        maxIterations bound x y sampleCount).g =
      ((sampleColors jitter rasterW rasterH centerX centerY viewW viewH
          maxIterations bound x y sampleCount).map Color.g).sum /
        (sampleCount : ℝ) ∧
    (renderPixel jitter rasterW rasterH centerX centerY viewW viewH
        maxIterations bound x y sampleCount).b =
      ((sampleColors jitter rasterW rasterH centerX centerY viewW viewH
          maxIterations bound x y sampleCount).map Color.b).sum /
        (sampleCount : ℝ) ∧
    (renderPixel jitter rasterW rasterH centerX centerY viewW viewH
        maxIterations bound x y sampleCount).a =
      ((sampleColors jitter rasterW rasterH centerX centerY viewW viewH
          maxIterations bound x y sampleCount).map Color.a).sum /
        (sampleCount : ℝ) := by
  refine ⟨by simp [sampleColors], ?_, ?_, ?_, ?_⟩ <;>
    simp [renderPixel, Color.divide,
      foldl_add_channel Color.r (fun c d => rfl),
      foldl_add_channel Color.g (fun c d => rfl),
      foldl_add_channel Color.b (fun c d => rfl),
      foldl_add_channel Color.a (fun c d => rfl),
      Color.new]

/-- C3: for every raster cell and every jitter pair, the sampled plane point
computed by the renderer coincides with the normalized-device-coordinate and
viewport-transform formulas exactly as the specification states them. -/
theorem samplePoint_eq_spec (rasterW rasterH : ℕ)
    (centerX centerY viewW viewH : ℝ) (x y : ℕ) (jitterX jitterY : ℝ) :
    samplePoint rasterW rasterH centerX centerY viewW viewH x y
        jitterX jitterY =
      specSamplePoint rasterW rasterH centerX centerY viewW viewH x y
        jitterX jitterY := rfl

/-- C4: the color contributed for a sample is a function of the iteration
count mod 16 only: congruent iteration counts yield identical palette
contributions. -/
theorem palette_contribution_mod16 (k1 k2 : ℕ) (h : k1 % 16 = k2 % 16) :
    paletteColor k1 = paletteColor k2 := by
  unfold paletteColor
  rw [h]

/-- Witness for C4: `3 ≡ 19 (mod 16)` and the palette contributions at 3 and
19 coincide. -/
theorem palette_contribution_mod16_witness :
    3 % 16 = 19 % 16 ∧ paletteColor 3 = paletteColor 19 :=
  ⟨by decide, palette_contribution_mod16 3 19 (by decide)⟩

/-- C9: palette indexing is always in bounds: for every iteration count `k`,
`k % 16` is strictly less than the palette length 16, and the lookup always
returns an actual palette entry (the out-of-bounds default branch is
unreachable). -/
theorem palette_index_in_bounds (k : ℕ) :
    k % 16 < COLOR_PALETTE.length ∧ paletteColor k ∈ COLOR_PALETTE :=
  ⟨by
     have h16 : COLOR_PALETTE.length = 16 := by simp [COLOR_PALETTE]
     rw [h16]
     exact Nat.mod_lt _ (by norm_num),
   paletteColor_mem k⟩

/-- C10: every entry of the fixed 16-color palette has alpha channel exactly
1, and therefore for every pixel and every sample count ≥ 1 the normalized
pixel color has alpha channel exactly 1 (the mean of `sampleCount` ones). -/
theorem pixel_alpha_one (jitter : ℕ → ℝ × ℝ) (rasterW rasterH : ℕ)
    (centerX centerY viewW viewH : ℝ) (maxIterations : ℕ) (bound : ℝ)
    (x y sampleCount : ℕ) (hn : 1 ≤ sampleCount) :
    (∀ c ∈ COLOR_PALETTE, c.a = 1) ∧
    (renderPixel jitter rasterW rasterH centerX centerY viewW viewH
        maxIterations bound x y sampleCount).a = 1 := by
  refine ⟨fun c hc => palette_mem_alpha c hc, ?_⟩
  have hmap : (sampleColors jitter rasterW rasterH centerX centerY viewW
      viewH maxIterations bound x y sampleCount).map Color.a =
      List.replicate sampleCount (1 : ℝ) := by
    rw [sampleColors, List.map_map]
    refine List.eq_replicate_iff.mpr ⟨by simp, ?_⟩
    intro b hb
    simp only [List.mem_map, Function.comp] at hb
    obtain ⟨s, -, rfl⟩ := hb
    exact palette_mem_alpha _ (paletteColor_mem _)
  have hne : (sampleCount : ℝ) ≠ 0 := Nat.cast_ne_zero.mpr (by omega)
  simp [renderPixel, Color.divide,
    foldl_add_channel Color.a (fun c d => rfl), Color.new, hmap,
    List.sum_replicate, div_self hne]

/-- Witness for C10: with the source's configuration constants and a zero
jitter source, pixel `(0, 0)` has alpha exactly 1. -/
theorem pixel_alpha_one_witness :
    1 ≤ SAMPLE_COUNT ∧
    (renderPixel (fun _ => (0, 0)) BUFFER_WIDTH BUFFER_HEIGHT (-0.7453)
        0.1127 1 1 MAX_ITERATIONS MAX_LENGTH 0 0 SAMPLE_COUNT).a = 1 :=
  ⟨by norm_num [SAMPLE_COUNT],
   (pixel_alpha_one (fun _ => (0, 0)) BUFFER_WIDTH BUFFER_HEIGHT (-0.7453)
     0.1127 1 1 MAX_ITERATIONS MAX_LENGTH 0 0 SAMPLE_COUNT
     (by norm_num [SAMPLE_COUNT])).2⟩

/-- C7: the progress percentages of a sequential render are monotonically
non-decreasing, all lie in `[0, 100]`, the value reported after completing
row `y` is `⌊y * 100 / rasterH⌋` (the prefix of the report list over the
rows), the sequence ends with a final 100, and for a raster of height 10 the
emitted sequence is `0, 10, ..., 90, 100`. -/
theorem progress_reports_spec (rasterH : ℕ) :
    List.Pairwise (· ≤ ·) (progressReports rasterH) ∧
    (progressReports rasterH).all (fun p => decide (p ≤ 100)) = true ∧
    (progressReports rasterH).take rasterH =
      ((List.range rasterH).map fun y => y * 100 / rasterH) ∧
    (progressReports rasterH).getLast? = some 100 ∧
    progressReports 10 = [0, 10, 20, 30, 40, 50, 60, 70, 80, 90, 100] := by
  have hle100 : ∀ y : ℕ, y < rasterH → y * 100 / rasterH ≤ 100 := by
    intro y hy
    calc y * 100 / rasterH ≤ rasterH * 100 / rasterH :=
          Nat.div_le_div_right (Nat.mul_le_mul_right 100 hy.le)
      _ = 100 := Nat.mul_div_cancel_left 100 (by omega)
  refine ⟨?_, ?_, ?_, ?_, by decide⟩
  · rw [progressReports, List.pairwise_append]
    refine ⟨?_, by simp, ?_⟩
    · rw [List.pairwise_map]
      exact (List.pairwise_lt_range rasterH).imp fun hab =>
        Nat.div_le_div_right (Nat.mul_le_mul_right 100 hab.le)
    · intro a ha b hb
      simp only [List.mem_singleton] at hb
      subst hb
      simp only [List.mem_map, List.mem_range] at ha
      obtain ⟨y, hy, rfl⟩ := ha
      exact hle100 y hy
  · rw [List.all_eq_true]
    intro p hp
    rw [progressReports, List.mem_append] at hp
    rcases hp with hp | hp
    · simp only [List.mem_map, List.mem_range] at hp
      obtain ⟨y, hy, rfl⟩ := hp
      simpa using hle100 y hy
    · simp only [List.mem_singleton] at hp
      subst hp
      decide
  · rw [progressReports]
    generalize hl : ((List.range rasterH).map fun y => y * 100 / rasterH) = l
    have hlen : l.length = rasterH := by rw [← hl]; simp
    rw [← hlen]
    exact List.take_left _ _
  · rw [progressReports]
    exact List.getLast?_concat _

/-- C8 counterexample: the program performs no degenerate-configuration
check.  With raster width 0 or raster height 0 the render loop silently
produces an empty buffer (there is no error path at all), contradicting the
claim that it fails fast with an `InvalidConfiguration` condition. -/
theorem render_degenerate_silently_empty :
    render (fun _ _ _ => (0, 0)) 0 3 0 0 1 1 10 2 1 = [] ∧
    render (fun _ _ _ => (0, 0)) 5 0 0 0 1 1 10 2 1 = [] := by
  constructor <;> simp [render]

/-- C8 amended: the code performs no precondition check for degenerate
configurations; its configuration is hard-coded to positive constants
(raster 1366 × 768, 16 samples per pixel), and were a degenerate raster
dimension supplied, the render loop would silently produce an empty buffer
rather than signal any `InvalidConfiguration` condition. -/
theorem no_degenerate_guard (jitter : ℕ → ℕ → ℕ → ℝ × ℝ)
    (rasterW rasterH : ℕ) (centerX centerY viewW viewH : ℝ)
    (maxIterations : ℕ) (bound : ℝ) (sampleCount : ℕ) :
    0 < BUFFER_WIDTH ∧ 0 < BUFFER_HEIGHT ∧ 0 < SAMPLE_COUNT ∧
    render jitter 0 rasterH centerX centerY viewW viewH maxIterations bound
      sampleCount = [] ∧
    render jitter rasterW 0 centerX centerY viewW viewH maxIterations bound
      sampleCount = [] := by
  refine ⟨by norm_num [BUFFER_WIDTH], by norm_num [BUFFER_HEIGHT],
    by norm_num [SAMPLE_COUNT], ?_, ?_⟩ <;> simp [render]

end

end MandelbrotSet
